import Mathlib

/-!
Verification of the FlowGraph plugin sources:
  Source/Flow/Private/Nodes/World/FlowNode_PlayLevelSequence.cpp
  Source/FlowEditor/Private/Find/FindInFlow.cpp

The C++ is shallowly embedded: the mutable fields of a
`UFlowNode_PlayLevelSequence` instance together with the engine-side
objects it points at (the loaded level sequence asset and the sequence
player) form an explicit state record, and each member function becomes a
state-transforming Lean function that additionally reports the observable
effects it performed (output pins triggered, streaming requests issued, ...)
as an explicit trace.
-/

namespace FlowGraph

/-! ## Data model for the level-sequence node

A `UMovieSceneSection` of the loaded asset.  `isFlowSection` records whether
`Cast<UMovieSceneFlowSectionBase>(Section)` succeeds; `eventBound` records
whether the section's `OnEventExecuted` delegate is currently bound (the only
binding performed anywhere in this translation unit is `BindStatic` to the
class-level callback `UFlowNode_PlayLevelSequence::OnSequenceEventExecuted`,
so a single flag is a faithful model of the delegate's state); `entryPoints`
is what `GetAllEntryPoints()` returns. -/
structure MovieSceneSection where
  isFlowSection : Bool
  eventBound : Bool
  entryPoints : List String
deriving DecidableEq

/-- A master track of the movie scene.  `isFlowTrack` records whether
`Track->GetClass() == UMovieSceneFlowTrack::StaticClass()`. -/
structure MovieSceneTrack where
  isFlowTrack : Bool
  sections : List MovieSceneSection
deriving DecidableEq

/-- The `ULevelSequence` asset; `tracks` is
`GetMovieScene()->GetMasterTracks()`. -/
structure LevelSequence where
  tracks : List MovieSceneTrack
deriving DecidableEq

/-- The engine-side `ULevelSequencePlayer` object.  `onFinishedCount` is the
number of handlers the node registered on the player's `OnFinished` dynamic
multicast delegate (the node is the only code in scope that touches this
freshly created player); `playing` is the playback status toggled by
`Play()` / `Stop()`. -/
structure Player where
  onFinishedCount : Nat
  playing : Bool
deriving DecidableEq

/-- State of one `UFlowNode_PlayLevelSequence` instance plus the engine
objects it can reach.

* `sequencePath` — the soft reference `Sequence`: `none` iff
  `Sequence.IsNull()`, otherwise the soft object path.
* `asset` — the engine-side asset that `LoadAsset<ULevelSequence>(Sequence)`
  resolves to, or `none` when the reference is null or loading fails.  The
  asset object (with the binding state of its sections) outlives the node's
  pointer to it.
* `loadedSequence` — whether the member pointer `LoadedSequence` is non-null
  (it then points at `asset`).
* `sequencePlayer` — whether the member pointer `SequencePlayer` is non-null
  (it then points at `player`).
* `player` — the engine-side player object created by this node, if any. -/
structure SequenceNodeState where
  sequencePath : Option String
  asset : Option LevelSequence
  loadedSequence : Bool
  sequencePlayer : Bool
  player : Option Player
deriving DecidableEq

/-- Observable effects of the node's member functions, in program order. -/
inductive SeqEffect where
  | createdPlayer
  | output (pinName : String)
  | registeredOnFinished
  | startedPlayback
  | firstOutput
deriving DecidableEq

/-- `FlowSection->OnEventExecuted.BindStatic(&OnSequenceEventExecuted)` on one
section (performed only for sections that cast to
`UMovieSceneFlowSectionBase`). -/
def bindSection (sec : MovieSceneSection) : MovieSceneSection :=
  if sec.isFlowSection then { sec with eventBound := true } else sec

/-- The per-track part of the binding loop in `CreatePlayer`: only tracks
whose class is exactly `UMovieSceneFlowTrack` are visited. -/
def bindTrack (tr : MovieSceneTrack) : MovieSceneTrack :=
  if tr.isFlowTrack then { tr with sections := tr.sections.map bindSection } else tr

/-- The whole binding loop of `CreatePlayer` (lines 105-118). -/
def bindFlowTrackEvents (seq : LevelSequence) : LevelSequence :=
  { seq with tracks := seq.tracks.map bindTrack }

/-- `FlowSection->OnEventExecuted.Unbind()` on one section. -/
def unbindSection (sec : MovieSceneSection) : MovieSceneSection :=
  if sec.isFlowSection then { sec with eventBound := false } else sec

/-- The per-track part of the unbinding loop in `Cleanup`. -/
def unbindTrack (tr : MovieSceneTrack) : MovieSceneTrack :=
  if tr.isFlowTrack then { tr with sections := tr.sections.map unbindSection } else tr

/-- The whole unbinding loop of `Cleanup` (lines 173-185). -/
def unbindFlowTrackEvents (seq : LevelSequence) : LevelSequence :=
  { seq with tracks := seq.tracks.map unbindTrack }

/-- A freshly created `ULevelSequencePlayer`: nothing registered on
`OnFinished`, not playing. -/
def freshPlayer : Player := { onFinishedCount := 0, playing := false }

/-- `UFlowNode_PlayLevelSequence::CreatePlayer` (lines 93-120):
`LoadedSequence = LoadAsset(Sequence)`; if it resolved, create the player and
bind every flow-track event section to the shared static callback. -/
def CreatePlayer (s : SequenceNodeState) : SequenceNodeState × List SeqEffect :=
  match s.asset with
  | some seq =>
      ({ s with
          loadedSequence := true
          asset := some (bindFlowTrackEvents seq)
          player := some freshPlayer
          sequencePlayer := true },
       [.createdPlayer])
  | none => ({ s with loadedSequence := false }, [])

/-- `UFlowNode_PlayLevelSequence::ExecuteInput` (lines 122-141):
`LoadedSequence = LoadAsset(Sequence)`; if the world is available and the
asset resolved, the player is created directly by
`ULevelSequencePlayer::CreateLevelSequencePlayer` (note: `CreatePlayer` is
NOT called, so no event section is bound here), "PreStart" is triggered,
`OnPlaybackFinished` is registered on the player's `OnFinished` delegate,
playback starts, and "Started" is triggered.  In every case the function
ends with `TriggerFirstOutput(false)`. -/
def ExecuteInput (worldPresent : Bool) (s : SequenceNodeState) :
    SequenceNodeState × List SeqEffect :=
  match worldPresent, s.asset with
  | true, some _ =>
      ({ s with
          loadedSequence := true
          player := some { onFinishedCount := 1, playing := true }
          sequencePlayer := true },
       [.createdPlayer, .output "PreStart", .registeredOnFinished,
        .startedPlayback, .output "Started", .firstOutput])
  | _, _ => ({ s with loadedSequence := s.asset.isSome }, [.firstOutput])

/-- `UFlowNode_PlayLevelSequence::OnPlaybackFinished` (lines 164-167): the
handler body just triggers the "Completed" output. -/
def OnPlaybackFinishedEffects : List SeqEffect := [.output "Completed"]

/-- The engine broadcasting the player's `OnFinished` delegate: every
registered handler (`OnPlaybackFinished`) runs once.  With no player, or no
registered handler, nothing happens. -/
def broadcastFinished (s : SequenceNodeState) : List SeqEffect :=
  match s.player with
  | some p => (List.replicate p.onFinishedCount OnPlaybackFinishedEffects).flatten
  | none => []

/-- `UFlowNode_PlayLevelSequence::Cleanup` (lines 169-200): if
`LoadedSequence` is set, unbind every flow-track event section and null the
pointer; if `SequencePlayer` is set, `OnFinished.RemoveAll(this)`, `Stop()`
and null the pointer. -/
def Cleanup (s : SequenceNodeState) : SequenceNodeState :=
  let s1 :=
    if s.loadedSequence then
      { s with asset := s.asset.map unbindFlowTrackEvents, loadedSequence := false }
    else s
  if s1.sequencePlayer then
    { s1 with
        player := s1.player.map (fun p => { p with onFinishedCount := 0, playing := false })
        sequencePlayer := false }
  else s1

/-- The innermost loop of `GetContextOutputs` (lines 50-58): the non-empty
entry points a section contributes, in order — nothing unless the section
casts to `UMovieSceneFlowSectionBase`. -/
def sectionPins (sec : MovieSceneSection) : List String :=
  if sec.isFlowSection then sec.entryPoints.filter (fun e => e ≠ "") else []

/-- The per-track loop of `GetContextOutputs` (lines 44-62): sections are
visited only for tracks of class `UMovieSceneFlowTrack`. -/
def trackPins (tr : MovieSceneTrack) : List String :=
  if tr.isFlowTrack then (tr.sections.map sectionPins).flatten else []

/-- `UFlowNode_PlayLevelSequence::GetContextOutputs` (lines 32-66): empty for
a null reference; otherwise `LoadSynchronous` and, if the asset is valid,
collect every non-empty entry point of every flow section of every
flow-class master track, in traversal order, via `PinNames.Emplace`. -/
def GetContextOutputs (s : SequenceNodeState) : List String :=
  match s.sequencePath with
  | none => []
  | some _ =>
      match s.asset with
      | some seq => (seq.tracks.map trackPins).flatten
      | none => []

/-- Requests the node can issue to the `FStreamableManager`.  The Bool on
`asyncLoad` records whether a bound completion delegate was passed
(`PreloadContent` passes the default-constructed, unbound
`FStreamableDelegate()`). -/
inductive StreamingRequest where
  | asyncLoad (path : String) (withCallback : Bool)
  | unload (path : String)
deriving DecidableEq

/-- `UFlowNode_PlayLevelSequence::PreloadContent` (lines 69-79): when the
soft reference is not null, request an async load of its path with an
unbound delegate; no member field is written. -/
def PreloadContent (s : SequenceNodeState) : SequenceNodeState × List StreamingRequest :=
  match s.sequencePath with
  | none => (s, [])
  | some p => (s, [.asyncLoad p false])

/-- `UFlowNode_PlayLevelSequence::FlushContent` (lines 81-91): when the soft
reference is not null, request unload of its path; no member field is
written. -/
def FlushContent (s : SequenceNodeState) : SequenceNodeState × List StreamingRequest :=
  match s.sequencePath with
  | none => (s, [])
  | some p => (s, [.unload p])

/-- The opaque `UObject* EventReceiver` handed to the static callback: null,
an instance of `UFlowNode_PlayLevelSequence` (identified by `nodeId`), or an
object of any other class. -/
inductive EventReceiver where
  | nullReceiver
  | playLevelSequenceNode (nodeId : Nat)
  | otherObject (objId : Nat)
deriving DecidableEq

/-- `Cast<UFlowNode_PlayLevelSequence>(EventReceiver)`: null on a null input
and on any object of another class. -/
def castToPlayLevelSequenceNode : EventReceiver → Option Nat
  | .playLevelSequenceNode nodeId => some nodeId
  | _ => none

/-- `UFlowNode_PlayLevelSequence::TriggerEvent` (lines 151-154): the given
instance triggers the output whose name is the event name. -/
def TriggerEvent (nodeId : Nat) (eventName : String) : Nat × String :=
  (nodeId, eventName)

/-- `UFlowNode_PlayLevelSequence::OnSequenceEventExecuted` (lines 143-149):
cast the receiver; on success forward the event name to that instance's
`TriggerEvent`, otherwise do nothing.  The result is the (instance, output
name) pair triggered, if any. -/
def OnSequenceEventExecuted (receiver : EventReceiver) (eventName : String) :
    Option (Nat × String) :=
  (castToPlayLevelSequenceNode receiver).map (fun nodeId => TriggerEvent nodeId eventName)

/-- Decidable check that every flow section of every flow track of the
referenced asset has its `OnEventExecuted` delegate bound. -/
def allFlowSectionsBound : Option LevelSequence → Bool
  | none => true
  | some seq =>
      seq.tracks.all (fun tr =>
        !tr.isFlowTrack || tr.sections.all (fun sec => !sec.isFlowSection || sec.eventBound))

/-- Decidable check that every flow section of every flow track of the
referenced asset has its `OnEventExecuted` delegate unbound. -/
def allFlowSectionsUnbound : Option LevelSequence → Bool
  | none => true
  | some seq =>
      seq.tracks.all (fun tr =>
        !tr.isFlowTrack || tr.sections.all (fun sec => !sec.isFlowSection || !sec.eventBound))

/-- Total number of occurrences of `name` among the entry points of the flow
sections of the flow tracks of `seq`. -/
def authoredEventCount (name : String) (seq : LevelSequence) : Nat :=
  (seq.tracks.map (fun tr =>
    if tr.isFlowTrack then
      (tr.sections.map (fun sec =>
        if sec.isFlowSection then sec.entryPoints.count name else 0)).sum
    else 0)).sum

/-! ## Data model for the editor search panel (FindInFlow.cpp) -/

/-- `needle.isEmpty || hay` starts with `needle` — the character-level prefix
test used to implement substring search on `FString` contents. -/
def listStartsWith : List Char → List Char → Bool
  | _, [] => true
  | [], _ :: _ => false
  | a :: as, b :: bs => a = b && listStartsWith as bs

/-- `containsSub needle hay` — whether `needle` occurs as a contiguous
substring of `hay`. -/
def containsSub (needle : List Char) : List Char → Bool
  | [] => listStartsWith [] needle
  | a :: t => listStartsWith (a :: t) needle || containsSub needle t

/-- The characters of `s` lowered — `FString`'s case-insensitive comparison
normalises case on both sides. -/
def toLowerList (s : String) : List Char := s.data.map Char.toLower

/-- `ComparisonString.Contains(Token)` — `FString::Contains` with its default
`ESearchCase::IgnoreCase`: a case-insensitive substring test. -/
def fstringContains (hay needle : String) : Bool :=
  containsSub (toLowerList needle) (toLowerList hay)

/-- `SFindInFlow::StringMatchesSearchTokens` (lines 391-406): the entry must
contain every token to pass. -/
def StringMatchesSearchTokens (tokens : List String) (comparisonString : String) : Bool :=
  tokens.all (fun t => fstringContains comparisonString t)

/-- Modelled from the spec: the literal reading of claim C10, in which every
token must be a (case-sensitive) substring of the comparison string.  Kept
separate from `StringMatchesSearchTokens`, which embeds the source and is
case-insensitive. -/
def specTokenSubstringMatch (tokens : List String) (comparisonString : String) : Bool :=
  tokens.all (fun t => containsSub t.data comparisonString.data)

/-- `NodeSearchString.Replace(TEXT(" "), TEXT(""))`: drop every space
character. -/
def removeSpaces (s : String) : String :=
  String.mk (s.data.filter (fun c => c ≠ ' '))

/-- The searchable data of one `UEdGraphNode`: title (list view), class name,
comment, and — when `Cast<UFlowGraphNode>` succeeds — the flow node's
description (`none` for non-flow nodes). -/
structure EdNodeData where
  title : String
  className : String
  comment : String
  flowDescription : Option String
deriving DecidableEq

/-- The search string built in `MatchTokens` / `MatchTokensInChild`: title,
class name and comment concatenated, the description appended for flow
nodes, then all spaces removed. -/
def searchString (d : EdNodeData) : String :=
  removeSpaces (d.title ++ d.className ++ d.comment ++ d.flowDescription.getD "")

/-- A graph node as seen by `MatchTokens`: its own searchable data, plus —
when it is a flow node wrapping a `UFlowNode_SubGraph` whose asset-to-edit is
a valid `UFlowAsset` — the graph nodes of that sub-asset (each possibly null,
as `GetGraphNode()` may return nullptr). -/
structure EdNode where
  data : EdNodeData
  subGraphNodes : Option (List (Option EdNodeData))
deriving DecidableEq

/-- One row of the result tree, as far as the claims are concerned: the
displayed value, whether it carries a graph node, and the values of its
children. -/
structure FindResult where
  value : String
  hasGraphNode : Bool
  childValues : List String
deriving DecidableEq

/-- `SFindInFlow::MatchTokensInChild` (lines 294-314): nothing for a null
child; otherwise a child row iff the child's search string matches. -/
def MatchTokensInChild (tokens : List String) (child : Option EdNodeData) : Option String :=
  child.bind (fun d =>
    if StringMatchesSearchTokens tokens (searchString d) then some d.title else none)

/-- `SFindInFlow::MatchTokens` (lines 238-292): nothing when the focused
graph is unavailable; otherwise one row per node that either has matching
sub-graph children (gathered only when the sub-graph checkbox is on) or
matches the tokens itself. -/
def MatchTokens (tokens : List String) (graph : Option (List EdNode))
    (findInSubGraph : Bool) : List FindResult :=
  match graph with
  | none => []
  | some nodes =>
      nodes.filterMap (fun node =>
        let childValues :=
          if findInSubGraph then
            match node.subGraphNodes with
            | some kids => kids.filterMap (MatchTokensInChild tokens)
            | none => []
          else []
        if !childValues.isEmpty || StringMatchesSearchTokens tokens (searchString node.data)
        then some { value := node.data.title, hasGraphNode := true, childValues := childValues }
        else none)

/-- The synthetic row inserted when nothing was found: value
"No Results found", constructed by `FFindInFlowResult(InValue)`, whose
`GraphNode` is nullptr. -/
def noResultsEntry : FindResult :=
  { value := "No Results found", hasGraphNode := false, childValues := [] }

/-- `FString::ParseIntoArray` over the single-character delimiter " " with
`InCullEmpty = true`: split on every space, discarding empty pieces.  `acc`
holds the (reversed) characters of the piece being built. -/
def splitTokensAux : List Char → List Char → List (List Char)
  | [], acc => if acc.isEmpty then [] else [acc.reverse]
  | c :: rest, acc =>
      if c = ' ' then
        if acc.isEmpty then splitTokensAux rest []
        else acc.reverse :: splitTokensAux rest []
      else splitTokensAux rest (c :: acc)

/-- `SearchValue.ParseIntoArray(Tokens, TEXT(" "), true)` (line 211). -/
def parseSearchTokens (searchValue : String) : List String :=
  (splitTokensAux searchValue.data []).map String.mk

/-- `SFindInFlow::InitiateSearch` (lines 208-236): tokenize the search value,
clear the result list, run `MatchTokens` when there is at least one token,
and insert the synthetic `noResultsEntry` when the list ended up empty. -/
def InitiateSearch (searchValue : String) (graph : Option (List EdNode))
    (findInSubGraph : Bool) : List FindResult :=
  let tokens := parseSearchTokens searchValue
  let found := if tokens.isEmpty then [] else MatchTokens tokens graph findInSubGraph
  if found.isEmpty then [noResultsEntry] else found

/-! ## Helper lemmas -/

/-- `listStartsWith hay needle` succeeds exactly when `needle` is an initial
segment of `hay`. -/
lemma listStartsWith_iff (hay needle : List Char) :
    listStartsWith hay needle = true ↔ ∃ r, hay = needle ++ r := by
  induction needle generalizing hay with
  | nil => simp [listStartsWith]
  | cons b bs ih =>
    cases hay with
    | nil => simp [listStartsWith]
    | cons a as =>
      rw [show listStartsWith (a :: as) (b :: bs) = (decide (a = b) && listStartsWith as bs)
          from rfl]
      rw [Bool.and_eq_true, decide_eq_true_iff, ih as]
      constructor
      · rintro ⟨rfl, r, rfl⟩
        exact ⟨r, rfl⟩
      · rintro ⟨r, h⟩
        injection h with h1 h2
        exact ⟨h1, r, h2⟩

/-- `containsSub needle hay` succeeds exactly when `needle` occurs
contiguously inside `hay`. -/
lemma containsSub_iff (needle hay : List Char) :
    containsSub needle hay = true ↔ ∃ l r, hay = l ++ needle ++ r := by
  induction hay with
  | nil =>
    rw [show containsSub needle [] = listStartsWith [] needle from rfl, listStartsWith_iff]
    constructor
    · rintro ⟨r, h⟩
      exact ⟨[], r, h⟩
    · rintro ⟨l, r, h⟩
      rw [List.nil_eq, List.append_assoc, List.append_eq_nil] at h
      exact ⟨[], by simp [h.1, (List.append_eq_nil.mp h.2).1]⟩
  | cons a t ih =>
    rw [show containsSub needle (a :: t) =
        (listStartsWith (a :: t) needle || containsSub needle t) from rfl]
    rw [Bool.or_eq_true, listStartsWith_iff, ih]
    constructor
    · rintro (⟨r, hr⟩ | ⟨l, r, hr⟩)
      · exact ⟨[], r, by simp [hr]⟩
      · exact ⟨a :: l, r, by simp [hr]⟩
    · rintro ⟨l, r, h⟩
      cases l with
      | nil => exact Or.inl ⟨r, by simpa using h⟩
      | cons x xs =>
        injection h with h1 h2
        exact Or.inr ⟨xs, r, by simpa using h2⟩

/-- After the unbinding loop, every flow section of every flow track is
unbound. -/
lemma allFlowSectionsUnbound_unbind (seq : LevelSequence) :
    allFlowSectionsUnbound (some (unbindFlowTrackEvents seq)) = true := by
  rw [show allFlowSectionsUnbound (some (unbindFlowTrackEvents seq)) =
      (unbindFlowTrackEvents seq).tracks.all (fun tr =>
        !tr.isFlowTrack || tr.sections.all (fun sec => !sec.isFlowSection || !sec.eventBound))
      from rfl]
  rw [unbindFlowTrackEvents, List.all_eq_true]
  intro tr htr
  rw [List.mem_map] at htr
  obtain ⟨t0, _, rfl⟩ := htr
  rw [unbindTrack]
  by_cases hf : t0.isFlowTrack
  · simp only [hf, if_true, Bool.or_eq_true, Bool.not_eq_true']
    right
    rw [List.all_eq_true]
    intro sec hsec
    rw [List.mem_map] at hsec
    obtain ⟨s0, _, rfl⟩ := hsec
    rw [unbindSection]
    by_cases hfs : s0.isFlowSection <;> simp [hfs]
  · simp [hf]

/-- `Cleanup` is the identity on a state whose two member pointers are
already null. -/
lemma cleanup_of_cleared (s : SequenceNodeState) (h1 : s.loadedSequence = false)
    (h2 : s.sequencePlayer = false) : Cleanup s = s := by
  simp [Cleanup, h1, h2]

/-- Both member pointers are null after `Cleanup`. -/
lemma cleanup_clears (s : SequenceNodeState) :
    (Cleanup s).loadedSequence = false ∧ (Cleanup s).sequencePlayer = false := by
  obtain ⟨path, asset, ls, sp, pl⟩ := s
  cases ls <;> cases sp <;> simp [Cleanup]

/-- Occurrence count of a non-empty name in the pins of one section. -/
lemma count_sectionPins (name : String) (hname : name ≠ "") (sec : MovieSceneSection) :
    (sectionPins sec).count name =
      if sec.isFlowSection then sec.entryPoints.count name else 0 := by
  rw [sectionPins]
  by_cases hf : sec.isFlowSection
  · simp only [hf, if_true]
    exact List.count_filter (by simpa using hname)
  · simp [hf]

/-- Occurrence count of a non-empty name in the pins of one track. -/
lemma count_trackPins (name : String) (hname : name ≠ "") (tr : MovieSceneTrack) :
    (trackPins tr).count name =
      if tr.isFlowTrack then
        (tr.sections.map (fun sec =>
          if sec.isFlowSection then sec.entryPoints.count name else 0)).sum
      else 0 := by
  rw [trackPins]
  by_cases hf : tr.isFlowTrack
  · simp only [hf, if_true]
    rw [List.count_flatten, List.map_map]
    have hfun : (List.count name ∘ sectionPins) =
        fun sec => if sec.isFlowSection then sec.entryPoints.count name else 0 :=
      funext (fun sec => count_sectionPins name hname sec)
    rw [hfun]
  · simp [hf]

/-- Occurrence count of a non-empty name in the full pin list of an asset. -/
lemma count_assetPins (name : String) (hname : name ≠ "") (seq : LevelSequence) :
    ((seq.tracks.map trackPins).flatten).count name = authoredEventCount name seq := by
  rw [List.count_flatten, List.map_map, authoredEventCount]
  have hfun : (List.count name ∘ trackPins) =
      fun tr =>
        if tr.isFlowTrack then
          (tr.sections.map (fun sec =>
            if sec.isFlowSection then sec.entryPoints.count name else 0)).sum
        else 0 :=
    funext (fun tr => count_trackPins name hname tr)
  rw [hfun]

/-- The empty name is never emitted as a pin. -/
lemma count_empty_assetPins (seq : LevelSequence) :
    ((seq.tracks.map trackPins).flatten).count "" = 0 := by
  rw [List.count_eq_zero]
  intro hmem
  rw [List.mem_flatten] at hmem
  obtain ⟨l, hl, hmeml⟩ := hmem
  rw [List.mem_map] at hl
  obtain ⟨tr, _, rfl⟩ := hl
  rw [trackPins] at hmeml
  by_cases hf : tr.isFlowTrack
  · simp only [hf, if_true, List.mem_flatten] at hmeml
    obtain ⟨l2, hl2, hmeml2⟩ := hmeml
    rw [List.mem_map] at hl2
    obtain ⟨sec, _, rfl⟩ := hl2
    rw [sectionPins] at hmeml2
    by_cases hfs : sec.isFlowSection
    · simp only [hfs, if_true, List.mem_filter, decide_not] at hmeml2
      simp at hmeml2
    · simp [hfs] at hmeml2
  · simp [hf] at hmeml

/-! ## Concrete instances used by counterexamples and witnesses -/

/-- A flow event section whose delegate is not yet bound. -/
def c1Section : MovieSceneSection :=
  { isFlowSection := true, eventBound := false, entryPoints := ["SequenceEvent"] }

/-- An asset with a single flow track holding `c1Section`. -/
def c1Sequence : LevelSequence :=
  { tracks := [{ isFlowTrack := true, sections := [c1Section] }] }

/-- A node about to be activated on `c1Sequence`. -/
def c1State : SequenceNodeState :=
  { sequencePath := some "LS_Test", asset := some c1Sequence,
    loadedSequence := false, sequencePlayer := false, player := none }

/-- An asset with one flow track whose single flow section is bound. -/
def c3Sequence : LevelSequence :=
  { tracks :=
      [{ isFlowTrack := true,
         sections := [{ isFlowSection := true, eventBound := true, entryPoints := ["Evt"] }] }] }

/-- A fully running node: asset loaded with a bound flow section, player
created, callback registered, playing. -/
def c3State : SequenceNodeState :=
  { sequencePath := some "LS_Run", asset := some c3Sequence,
    loadedSequence := true, sequencePlayer := true,
    player := some { onFinishedCount := 1, playing := true } }

/-- An asset with one flow track whose two flow sections both author the
event name "E". -/
def c6Sequence : LevelSequence :=
  { tracks := [{ isFlowTrack := true, sections :=
      [ { isFlowSection := true, eventBound := false, entryPoints := ["E"] },
        { isFlowSection := true, eventBound := false, entryPoints := ["E"] } ] }] }

/-- A node referencing `c6Sequence`. -/
def c6State : SequenceNodeState :=
  { sequencePath := some "LS_Dup", asset := some c6Sequence,
    loadedSequence := false, sequencePlayer := false, player := none }

/-- A graph node whose search string is "FlowNode" (title "Flow Node", space
removed). -/
def c10Node : EdNodeData :=
  { title := "Flow Node", className := "", comment := "", flowDescription := none }

/-! ## Claim theorems -/

/-- Claim C1 (code bug): the activation path `ExecuteInput` creates a
sequence player, yet the event section of the flow-type track stays unbound:
`ExecuteInput` duplicates the player creation instead of calling
`CreatePlayer`, and only `CreatePlayer` (never invoked on this path) performs
the `OnEventExecuted.BindStatic` loop, as the third conjunct shows for the
same starting state. -/
theorem executeInput_skips_event_binding :
    (ExecuteInput true c1State).1.sequencePlayer = true ∧
    allFlowSectionsBound (ExecuteInput true c1State).1.asset = false ∧
    allFlowSectionsBound (CreatePlayer c1State).1.asset = true := by decide

/-- Claim C2: when the world is unavailable or the asset fails to load,
`ExecuteInput` fires neither "PreStart" nor "Started", creates no player,
and still triggers the first output, so the graph advances past the node. -/
theorem executeInput_failure_advances (worldPresent : Bool) (s : SequenceNodeState)
    (h : worldPresent = false ∨ s.asset = none) :
    (ExecuteInput worldPresent s).2 = [SeqEffect.firstOutput] ∧
    SeqEffect.output "PreStart" ∉ (ExecuteInput worldPresent s).2 ∧
    SeqEffect.output "Started" ∉ (ExecuteInput worldPresent s).2 ∧
    (ExecuteInput worldPresent s).1.sequencePlayer = s.sequencePlayer ∧
    (ExecuteInput worldPresent s).1.player = s.player := by
  obtain ⟨path, asset, ls, sp, pl⟩ := s
  rcases h with rfl | h
  · cases asset <;> simp [ExecuteInput]
  · subst h
    cases worldPresent <;> simp [ExecuteInput]

/-- Claim C2 witness: activation with a null asset reference and no world. -/
theorem executeInput_failure_advances_witness :
    (ExecuteInput false ⟨none, none, false, false, none⟩).2 = [SeqEffect.firstOutput] ∧
    SeqEffect.output "PreStart" ∉ (ExecuteInput false ⟨none, none, false, false, none⟩).2 ∧
    SeqEffect.output "Started" ∉ (ExecuteInput false ⟨none, none, false, false, none⟩).2 ∧
    (ExecuteInput false ⟨none, none, false, false, none⟩).1.sequencePlayer = false ∧
    (ExecuteInput false ⟨none, none, false, false, none⟩).1.player = none :=
  executeInput_failure_advances false ⟨none, none, false, false, none⟩ (Or.inl rfl)

/-- Claim C3: from every node state `Cleanup` nulls both member pointers,
unbinds every flow-track event section of the sequence it had loaded, clears
the registered completion callback and stops the released player, and a
second `Cleanup` changes nothing (it is a total function, so it never
faults). -/
theorem cleanup_idempotent_and_clearing (s : SequenceNodeState) :
    (Cleanup s).loadedSequence = false ∧
    (Cleanup s).sequencePlayer = false ∧
    (s.loadedSequence = true → allFlowSectionsUnbound (Cleanup s).asset = true) ∧
    (s.sequencePlayer = true → ∀ p, (Cleanup s).player = some p →
      p.onFinishedCount = 0 ∧ p.playing = false) ∧
    Cleanup (Cleanup s) = Cleanup s := by
  refine ⟨(cleanup_clears s).1, (cleanup_clears s).2, ?_, ?_,
    cleanup_of_cleared _ (cleanup_clears s).1 (cleanup_clears s).2⟩
  · intro h
    obtain ⟨path, asset, ls, sp, pl⟩ := s
    subst h
    cases asset with
    | none => cases sp <;> simp [Cleanup, allFlowSectionsUnbound]
    | some seq => cases sp <;> simpa [Cleanup] using allFlowSectionsUnbound_unbind seq
  · intro h p hp
    obtain ⟨path, asset, ls, sp, pl⟩ := s
    subst h
    cases ls <;> cases pl <;> simp [Cleanup] at hp <;> subst hp <;> exact ⟨rfl, rfl⟩

/-- Claim C3 witness: cleanup of a fully running node. -/
theorem cleanup_idempotent_and_clearing_witness :
    (Cleanup c3State).loadedSequence = false ∧
    (Cleanup c3State).sequencePlayer = false ∧
    allFlowSectionsUnbound (Cleanup c3State).asset = true ∧
    ((⟨0, false⟩ : Player).onFinishedCount = 0 ∧ (⟨0, false⟩ : Player).playing = false) ∧
    Cleanup (Cleanup c3State) = Cleanup c3State := by
  have h := cleanup_idempotent_and_clearing c3State
  exact ⟨h.1, h.2.1, h.2.2.1 rfl, h.2.2.2.1 rfl ⟨0, false⟩ (by decide), h.2.2.2.2⟩

/-- Claim C4: the shared static callback routes an event to exactly the
receiver instance when it casts to `UFlowNode_PlayLevelSequence`, triggering
an output named after the event name, and does nothing for a null receiver
or one of any other class. -/
theorem onSequenceEventExecuted_routing :
    (∀ nodeId eventName,
      OnSequenceEventExecuted (.playLevelSequenceNode nodeId) eventName =
        some (TriggerEvent nodeId eventName) ∧
      TriggerEvent nodeId eventName = (nodeId, eventName)) ∧
    (∀ eventName, OnSequenceEventExecuted .nullReceiver eventName = none) ∧
    (∀ objId eventName, OnSequenceEventExecuted (.otherObject objId) eventName = none) :=
  ⟨fun _ _ => ⟨rfl, rfl⟩, fun _ => rfl, fun _ _ => rfl⟩

/-- Claim C5: on a successful activation the observable steps happen in this
order: player creation, "PreStart", registration of the completion callback
on the player's `OnFinished` delegate, start of playback, "Started" (and
finally the unconditional first output). -/
theorem executeInput_success_effect_order (s : SequenceNodeState) (seq : LevelSequence)
    (h : s.asset = some seq) :
    (ExecuteInput true s).2 =
      [SeqEffect.createdPlayer, SeqEffect.output "PreStart", SeqEffect.registeredOnFinished,
       SeqEffect.startedPlayback, SeqEffect.output "Started", SeqEffect.firstOutput] ∧
    (ExecuteInput true s).1.sequencePlayer = true ∧
    (ExecuteInput true s).1.player = some { onFinishedCount := 1, playing := true } := by
  obtain ⟨path, asset, ls, sp, pl⟩ := s
  subst h
  simp [ExecuteInput]

/-- Claim C5 witness: successful activation on a trivial asset. -/
theorem executeInput_success_effect_order_witness :
    (ExecuteInput true ⟨some "LS", some ⟨[]⟩, false, false, none⟩).2 =
      [SeqEffect.createdPlayer, SeqEffect.output "PreStart", SeqEffect.registeredOnFinished,
       SeqEffect.startedPlayback, SeqEffect.output "Started", SeqEffect.firstOutput] ∧
    (ExecuteInput true ⟨some "LS", some ⟨[]⟩, false, false, none⟩).1.sequencePlayer = true ∧
    (ExecuteInput true ⟨some "LS", some ⟨[]⟩, false, false, none⟩).1.player =
      some { onFinishedCount := 1, playing := true } :=
  executeInput_success_effect_order ⟨some "LS", some ⟨[]⟩, false, false, none⟩ ⟨[]⟩ rfl

/-- Claim C6 counterexample: with the event name "E" authored in two flow
sections, `GetContextOutputs` returns it twice, so an authored event name
does not appear exactly once as a pin name. -/
theorem getContextOutputs_duplicate_pin_names :
    GetContextOutputs c6State = ["E", "E"] ∧
    (GetContextOutputs c6State).count "E" ≠ 1 := by decide

/-- Claim C6 (amended): `GetContextOutputs` is empty for a null reference and
for an unresolvable asset, never emits the empty name, and emits every
non-empty authored event name once per authored occurrence (duplicates are
kept). -/
theorem getContextOutputs_occurrence_spec (s : SequenceNodeState) :
    (s.sequencePath = none → GetContextOutputs s = []) ∧
    (s.asset = none → GetContextOutputs s = []) ∧
    (GetContextOutputs s).count "" = 0 ∧
    (∀ seq, s.sequencePath ≠ none → s.asset = some seq → ∀ name, name ≠ "" →
      (GetContextOutputs s).count name = authoredEventCount name seq) := by
  obtain ⟨path, asset, ls, sp, pl⟩ := s
  refine ⟨?_, ?_, ?_, ?_⟩
  · rintro rfl
    rfl
  · intro h
    subst h
    cases path <;> rfl
  · cases path with
    | none => simp [GetContextOutputs]
    | some p0 =>
      cases asset with
      | none => simp [GetContextOutputs]
      | some seq => exact count_empty_assetPins seq
  · intro seq hpath hasset name hname
    subst hasset
    cases path with
    | none => exact absurd rfl hpath
    | some p0 => exact count_assetPins name hname seq

/-- Claim C6 witness: on the duplicated asset the pin count of "E" equals its
authored occurrence count. -/
theorem getContextOutputs_occurrence_spec_witness :
    (GetContextOutputs c6State).count "E" = authoredEventCount "E" c6Sequence :=
  (getContextOutputs_occurrence_spec c6State).2.2.2 c6Sequence (by decide) rfl "E" (by decide)

/-- Claim C7: a successful activation registers the completion callback
exactly once on the freshly created player, `OnPlaybackFinished` fires
"Completed", so a finish broadcast after activation triggers "Completed"
exactly once, and after `Cleanup` (which removes the registration) a later
finish broadcast triggers nothing. -/
theorem completed_fires_exactly_once (s : SequenceNodeState) (seq : LevelSequence)
    (h : s.asset = some seq) :
    OnPlaybackFinishedEffects = [SeqEffect.output "Completed"] ∧
    (ExecuteInput true s).1.player = some { onFinishedCount := 1, playing := true } ∧
    broadcastFinished (ExecuteInput true s).1 = [SeqEffect.output "Completed"] ∧
    broadcastFinished (Cleanup (ExecuteInput true s).1) = [] := by
  obtain ⟨path, asset, ls, sp, pl⟩ := s
  subst h
  refine ⟨rfl, by simp [ExecuteInput], ?_, ?_⟩
  · simp [ExecuteInput, broadcastFinished, OnPlaybackFinishedEffects]
  · simp [ExecuteInput, Cleanup, broadcastFinished]

/-- Claim C7 witness: a successful activation followed by a finish broadcast
and a cleanup on a trivial asset. -/
theorem completed_fires_exactly_once_witness :
    OnPlaybackFinishedEffects = [SeqEffect.output "Completed"] ∧
    (ExecuteInput true ⟨some "LS2", some ⟨[]⟩, false, false, none⟩).1.player =
      some { onFinishedCount := 1, playing := true } ∧
    broadcastFinished (ExecuteInput true ⟨some "LS2", some ⟨[]⟩, false, false, none⟩).1 =
      [SeqEffect.output "Completed"] ∧
    broadcastFinished (Cleanup (ExecuteInput true ⟨some "LS2", some ⟨[]⟩, false, false, none⟩).1) =
      [] :=
  completed_fires_exactly_once ⟨some "LS2", some ⟨[]⟩, false, false, none⟩ ⟨[]⟩ rfl

/-- Claim C8: `InitiateSearch` never produces an empty list; whenever nothing
matched — the query tokenized to nothing, the graph was unavailable, or no
node passed `MatchTokens` — the list is exactly the synthetic
"No Results found" entry, which carries no graph node. -/
theorem initiateSearch_result_nonempty (searchValue : String)
    (graph : Option (List EdNode)) (findInSubGraph : Bool) :
    InitiateSearch searchValue graph findInSubGraph ≠ [] ∧
    ((parseSearchTokens searchValue = [] ∨
      MatchTokens (parseSearchTokens searchValue) graph findInSubGraph = []) →
      InitiateSearch searchValue graph findInSubGraph = [noResultsEntry] ∧
      noResultsEntry.hasGraphNode = false) := by
  constructor
  · by_cases h1 : (parseSearchTokens searchValue).isEmpty
    · simp [InitiateSearch, h1]
    · by_cases h2 :
        (MatchTokens (parseSearchTokens searchValue) graph findInSubGraph).isEmpty
      · simp [InitiateSearch, h1, h2]
      · simp only [InitiateSearch, h1, if_false, Bool.not_eq_true] at h2 ⊢
        simp [h2]
        exact fun hc => by simp [hc] at h2
  · intro h
    rcases h with h | h
    · simp [InitiateSearch, h, noResultsEntry]
    · by_cases h1 : (parseSearchTokens searchValue).isEmpty <;>
        simp [InitiateSearch, h1, h, noResultsEntry]

/-- Claim C8 witness: empty query on an unavailable graph yields exactly the
synthetic entry. -/
theorem initiateSearch_result_nonempty_witness :
    InitiateSearch "" none false = [noResultsEntry] ∧
    noResultsEntry.hasGraphNode = false :=
  (initiateSearch_result_nonempty "" none false).2 (Or.inl (by decide))

/-- Claim C9: `PreloadContent` and `FlushContent` leave the node state
untouched; with a null reference they issue nothing, otherwise
`PreloadContent` issues one async load of the reference's path with no
completion callback and `FlushContent` one unload of the same path. -/
theorem preload_flush_requests (s : SequenceNodeState) :
    (PreloadContent s).1 = s ∧
    (FlushContent s).1 = s ∧
    (s.sequencePath = none → (PreloadContent s).2 = [] ∧ (FlushContent s).2 = []) ∧
    (∀ p, s.sequencePath = some p →
      (PreloadContent s).2 = [StreamingRequest.asyncLoad p false] ∧
      (FlushContent s).2 = [StreamingRequest.unload p]) := by
  obtain ⟨path, asset, ls, sp, pl⟩ := s
  cases path <;> simp [PreloadContent, FlushContent]

/-- Claim C9 witness: a node with a non-null reference issues the paired
load and unload requests for the same path. -/
theorem preload_flush_requests_witness :
    (PreloadContent ⟨some "LS_P", none, false, false, none⟩).2 =
      [StreamingRequest.asyncLoad "LS_P" false] ∧
    (FlushContent ⟨some "LS_P", none, false, false, none⟩).2 =
      [StreamingRequest.unload "LS_P"] :=
  (preload_flush_requests ⟨some "LS_P", none, false, false, none⟩).2.2.2 "LS_P" rfl

/-- Claim C10 counterexample: the token "owno" matches the node whose search
string is "FlowNode" (the source's `FString::Contains` is case-insensitive),
yet "owno" is not a literal substring of "FlowNode", refuting the claim's
case-sensitive substring reading. -/
theorem stringMatches_case_counterexample :
    StringMatchesSearchTokens ["owno"] (searchString c10Node) = true ∧
    specTokenSubstringMatch ["owno"] (searchString c10Node) = false := by decide

/-- Claim C10 (amended): a node is a direct search match iff every
space-separated query token is, case-insensitively, a substring of the
concatenation of title, class name, comment and flow-node description with
all spaces removed; an empty token list matches every node. -/
theorem stringMatches_characterisation (tokens : List String) (d : EdNodeData) :
    (StringMatchesSearchTokens tokens (searchString d) = true ↔
      ∀ t ∈ tokens, ∃ l r, toLowerList (searchString d) = l ++ toLowerList t ++ r) ∧
    (tokens = [] → StringMatchesSearchTokens tokens (searchString d) = true) := by
  constructor
  · rw [StringMatchesSearchTokens, List.all_eq_true]
    constructor
    · intro h t ht
      exact (containsSub_iff (toLowerList t) (toLowerList (searchString d))).1 (h t ht)
    · intro h t ht
      exact (containsSub_iff (toLowerList t) (toLowerList (searchString d))).2 (h t ht)
  · rintro rfl
    rfl

/-- Claim C10 witness: the token "node" matches `c10Node` via the substring
characterisation, and the empty token list matches it. -/
theorem stringMatches_characterisation_witness :
    StringMatchesSearchTokens ["node"] (searchString c10Node) = true ∧
    StringMatchesSearchTokens [] (searchString c10Node) = true := by
  constructor
  · apply (stringMatches_characterisation ["node"] c10Node).1.2
    intro t ht
    rw [List.mem_singleton] at ht
    subst ht
    exact ⟨"flow".data, [], by decide⟩
  · exact (stringMatches_characterisation [] c10Node).2 rfl

end FlowGraph
